import Mathlib

/-!
Verification development for the inference fallback engine of the
SEO-Vision bulk image SEO platform (`src/services/aiService.ts`,
"Intelligent Multi-Provider Engine" variant, which the specification's
claims cite by line number).

The engine is embedded shallowly:
* JavaScript strings are Lean `String`s; `trim`, `substring`, `length`,
  `replace(/.../g, '')` are reimplemented over the underlying `List Char`
  with JavaScript's clamping semantics.
* `JSON.parse` is embedded as a fuel-based recursive-descent parser for
  the JSON grammar (`jsonParse`); the engine only observes whether the
  text parses and the `title` / `description` / `keywords` fields of the
  result, which `jsonToSEOData` projects out exactly as the property
  accesses in the source do.
* The network call of each attempt (SDK call or `fetch`, including the
  prompt the constraints generate) is abstracted as an oracle
  `respond : StrategyStep → String → Except String String` mapping the
  (model, provider) step and the trimmed API key to either a thrown
  error message or the raw response text.  Everything after the raw
  text is obtained is deterministic source code and embedded directly.
* The mutable `lastError` variable of the source is modelled by the
  list of its successive assignments (an attempt log); the engine's
  final error message consults only the most recent entry, exactly as
  the source's single variable does.
-/

namespace SEOVision

/-- The left-brace character, written via its code point. -/
def lbrace : Char := Char.ofNat 123

/-- The right-brace character, written via its code point. -/
def rbrace : Char := Char.ofNat 125

/-- Drop leading and trailing whitespace from a character list:
the semantics of JavaScript `String.prototype.trim`. -/
def trimChars (l : List Char) : List Char :=
  ((l.dropWhile Char.isWhitespace).reverse.dropWhile Char.isWhitespace).reverse

/-- JavaScript `s.trim()`. -/
def jsTrim (s : String) : String := ⟨trimChars s.data⟩

/-- JavaScript `s.substring(0, e)`: a negative end index is clamped to 0,
which Nat subtraction in the callers reproduces; an end index past the end
is clamped to the length, which `List.take` reproduces. -/
def jsSubstringTo (s : String) (e : Nat) : String := ⟨s.data.take e⟩

/-- JavaScript `s.length` (code points stand in for UTF-16 units). -/
def jsLen (s : String) : Nat := s.data.length

/-- The provider families of the engine (`AIProvider` in `src/types.ts`). -/
inductive AIProvider
  | groq
  | openai
  | gemini
  | deepseek
  | openrouter
deriving DecidableEq

/-- The result of `provider.toUpperCase()` applied to the provider's string identifier,
as the source does when formatting a failure. -/
def AIProvider.upper : AIProvider → String
  | .groq => "GROQ"
  | .openai => "OPENAI"
  | .gemini => "GEMINI"
  | .deepseek => "DEEPSEEK"
  | .openrouter => "OPENROUTER"

/-- The lowercase provider identifier string, as it appears in the source. -/
def AIProvider.id : AIProvider → String
  | .groq => "groq"
  | .openai => "openai"
  | .gemini => "gemini"
  | .deepseek => "deepseek"
  | .openrouter => "openrouter"

/-- The per-provider credential lists (`AppSettings.keys` in `src/types.ts`). -/
structure ProviderKeys where
  groq : List String
  openai : List String
  gemini : List String
  deepseek : List String
  openrouter : List String
deriving DecidableEq

/-- Lookup of `settings.keys[provider]`. -/
def ProviderKeys.forProvider (k : ProviderKeys) : AIProvider → List String
  | .groq => k.groq
  | .openai => k.openai
  | .gemini => k.gemini
  | .deepseek => k.deepseek
  | .openrouter => k.openrouter

/-- Structure `AppSettings` from `src/types.ts`, restricted to the fields the engine
reads (the `useProxy` flag is never consulted by `analyzeImageWithAI`). -/
structure AppSettings where
  keys : ProviderKeys
deriving DecidableEq

/-- Structure `SEOData` from `src/types.ts`.  `keywords` is declared required in the
TypeScript interface but may be `undefined` at runtime (the parsed JSON is
cast, not validated), which the source guards with `data.keywords || []`;
`Option` models that possible absence. -/
structure SEOData where
  title : String
  description : Option String
  keywords : Option (List String)
deriving DecidableEq

/-- Structure `StockConstraints` from `src/types.ts`, restricted to the fields
`applyPostProcessing` and the engine loop read.  The source's `prefix` and
`suffix` fields are rendered `prefixText` / `suffixText` (the source names
are reserved words in Lean); the platform/exclusion fields only influence
the generated prompt, which the response oracle absorbs. -/
structure StockConstraints where
  maxTitleChars : Nat
  maxDescChars : Nat
  keywordCount : Nat
  prefixText : String
  suffixText : String
  prefixEnabled : Bool
  suffixEnabled : Bool
deriving DecidableEq

/-- Function `applyPostProcessing` from `src/services/aiService.ts` (lines 244-266):
trim the title; if it exceeds `maxTitleChars`, truncate to
`maxTitleChars - 3` characters and append an ellipsis; prepend the trimmed
prefix plus a space when enabled and non-empty; append a space plus the
trimmed suffix when enabled and non-empty; replace an absent keyword list
by `[]` and truncate it to `keywordCount` entries when longer. -/
def applyPostProcessing (data : SEOData) (constraints : StockConstraints) : SEOData :=
  let title0 := jsTrim data.title
  let title1 :=
    if jsLen title0 > constraints.maxTitleChars then
      jsSubstringTo title0 (constraints.maxTitleChars - 3) ++ "..."
    else title0
  let title2 :=
    if constraints.prefixEnabled && !(constraints.prefixText == "") then
      jsTrim constraints.prefixText ++ " " ++ title1
    else title1
  let title3 :=
    if constraints.suffixEnabled && !(constraints.suffixText == "") then
      title2 ++ " " ++ jsTrim constraints.suffixText
    else title2
  let keywords0 := data.keywords.getD []
  let keywords1 :=
    if keywords0.length > constraints.keywordCount then
      keywords0.take constraints.keywordCount
    else keywords0
  { data with title := title3, keywords := some keywords1 }

/-- The title after the trim-and-truncate step of `applyPostProcessing`,
before affixes (the first two statements of the source function). -/
def truncatedTitle (data : SEOData) (constraints : StockConstraints) : String :=
  let title0 := jsTrim data.title
  if jsLen title0 > constraints.maxTitleChars then
    jsSubstringTo title0 (constraints.maxTitleChars - 3) ++ "..."
  else title0

/-- JSON values, as produced by `JSON.parse`.  Number literals are kept as
their lexeme: the engine never reads a numeric field, so their numeric value
is irrelevant to every observation it makes. -/
inductive Json where
  | null
  | bool (b : Bool)
  | num (lexeme : String)
  | str (s : String)
  | arr (elems : List Json)
  | obj (fields : List (String × Json))

/-- JSON insignificant whitespace (space, tab, line feed, carriage return). -/
def jsonWs (c : Char) : Bool :=
  c = ' ' || c = '\t' || c = '\n' || c = '\r'

def skipWs (cs : List Char) : List Char := cs.dropWhile jsonWs

def hexVal (c : Char) : Option Nat :=
  if '0' ≤ c ∧ c ≤ '9' then some (c.toNat - '0'.toNat)
  else if 'a' ≤ c ∧ c ≤ 'f' then some (c.toNat - 'a'.toNat + 10)
  else if 'A' ≤ c ∧ c ≤ 'F' then some (c.toNat - 'A'.toNat + 10)
  else none

def parseHex4 : List Char → Option (Nat × List Char)
  | a :: b :: c :: d :: rest => do
    let va ← hexVal a
    let vb ← hexVal b
    let vc ← hexVal c
    let vd ← hexVal d
    pure (((va * 16 + vb) * 16 + vc) * 16 + vd, rest)
  | _ => none

/-- Body of a JSON string literal (after the opening quote), with the
standard escapes; returns the decoded string and the input after the
closing quote. -/
def parseStringBody (fuel : Nat) (cs : List Char) (acc : List Char) :
    Option (String × List Char) :=
  match fuel with
  | 0 => none
  | fuel + 1 =>
    match cs with
    | [] => none
    | c :: rest =>
      if c = '"' then some (⟨acc.reverse⟩, rest)
      else if c = '\\' then
        match rest with
        | [] => none
        | e :: rest2 =>
          if e = '"' then parseStringBody fuel rest2 ('"' :: acc)
          else if e = '\\' then parseStringBody fuel rest2 ('\\' :: acc)
          else if e = '/' then parseStringBody fuel rest2 ('/' :: acc)
          else if e = 'b' then parseStringBody fuel rest2 (Char.ofNat 8 :: acc)
          else if e = 'f' then parseStringBody fuel rest2 (Char.ofNat 12 :: acc)
          else if e = 'n' then parseStringBody fuel rest2 ('\n' :: acc)
          else if e = 'r' then parseStringBody fuel rest2 ('\r' :: acc)
          else if e = 't' then parseStringBody fuel rest2 ('\t' :: acc)
          else if e = 'u' then
            match parseHex4 rest2 with
            | some (n, rest3) => parseStringBody fuel rest3 (Char.ofNat n :: acc)
            | none => none
          else none
      else parseStringBody fuel rest (c :: acc)

/-- Optional exponent part of a JSON number literal; `acc` is the lexeme
parsed so far. -/
def parseExpPart (acc : List Char) (cs : List Char) : Option (String × List Char) :=
  match cs with
  | e :: r1 =>
    if e = 'e' ∨ e = 'E' then
      let (signPart, r2) :=
        match r1 with
        | '+' :: r => (['+'], r)
        | '-' :: r => (['-'], r)
        | _ => (([] : List Char), r1)
      let ds := r2.takeWhile Char.isDigit
      if ds = [] then none
      else some (⟨acc ++ e :: (signPart ++ ds)⟩, r2.dropWhile Char.isDigit)
    else some (⟨acc⟩, cs)
  | [] => some (⟨acc⟩, cs)

/-- A JSON number literal, returned as its lexeme: optional minus, integer
part (a lone `0` or a nonzero-led digit run), optional fraction, optional
exponent. -/
def parseNumber (cs : List Char) : Option (String × List Char) :=
  let (negPart, cs1) :=
    match cs with
    | '-' :: r => (['-'], r)
    | _ => (([] : List Char), cs)
  match cs1 with
  | [] => none
  | c :: r1 =>
    if ¬ c.isDigit then none
    else
      let (intPart, cs2) :=
        if c = '0' then (['0'], r1)
        else (cs1.takeWhile Char.isDigit, cs1.dropWhile Char.isDigit)
      match cs2 with
      | '.' :: r2 =>
        let ds := r2.takeWhile Char.isDigit
        if ds = [] then none
        else parseExpPart (negPart ++ intPart ++ '.' :: ds) (r2.dropWhile Char.isDigit)
      | _ => parseExpPart (negPart ++ intPart) cs2

mutual

/-- Recursive-descent parser for one JSON value; fuel bounds recursion. -/
def parseValue (fuel : Nat) (cs : List Char) : Option (Json × List Char) :=
  match fuel with
  | 0 => none
  | fuel + 1 =>
    let cs := skipWs cs
    match cs with
    | [] => none
    | c :: rest =>
      if c = lbrace then parseObjectRest fuel (skipWs rest)
      else if c = '[' then parseArrayRest fuel (skipWs rest)
      else if c = '"' then
        match parseStringBody (rest.length + 1) rest [] with
        | some (s, r) => some (.str s, r)
        | none => none
      else if List.isPrefixOf "true".data cs then some (.bool true, cs.drop 4)
      else if List.isPrefixOf "false".data cs then some (.bool false, cs.drop 5)
      else if List.isPrefixOf "null".data cs then some (.null, cs.drop 4)
      else
        match parseNumber cs with
        | some (s, r) => some (.num s, r)
        | none => none

/-- After an opening brace (whitespace skipped): an empty object or the
member list. -/
def parseObjectRest (fuel : Nat) (cs : List Char) : Option (Json × List Char) :=
  match fuel with
  | 0 => none
  | fuel + 1 =>
    match cs with
    | [] => none
    | c :: rest =>
      if c = rbrace then some (.obj [], rest)
      else parseMembers fuel cs []

/-- One or more `"key": value` members separated by commas, ending at a
closing brace. -/
def parseMembers (fuel : Nat) (cs : List Char) (acc : List (String × Json)) :
    Option (Json × List Char) :=
  match fuel with
  | 0 => none
  | fuel + 1 =>
    match skipWs cs with
    | [] => none
    | c :: rest =>
      if c = '"' then
        match parseStringBody (rest.length + 1) rest [] with
        | none => none
        | some (k, r1) =>
          match skipWs r1 with
          | ':' :: r2 =>
            match parseValue fuel r2 with
            | none => none
            | some (v, r3) =>
              match skipWs r3 with
              | ',' :: r4 => parseMembers fuel r4 (acc ++ [(k, v)])
              | d :: r4 =>
                if d = rbrace then some (.obj (acc ++ [(k, v)]), r4) else none
              | [] => none
          | _ => none
      else none

/-- After an opening bracket (whitespace skipped): an empty array or the
element list. -/
def parseArrayRest (fuel : Nat) (cs : List Char) : Option (Json × List Char) :=
  match fuel with
  | 0 => none
  | fuel + 1 =>
    match cs with
    | [] => none
    | c :: rest =>
      if c = ']' then some (.arr [], rest)
      else parseElems fuel cs []

/-- One or more array elements separated by commas, ending at a closing
bracket. -/
def parseElems (fuel : Nat) (cs : List Char) (acc : List Json) :
    Option (Json × List Char) :=
  match fuel with
  | 0 => none
  | fuel + 1 =>
    match parseValue fuel cs with
    | none => none
    | some (v, r1) =>
      match skipWs r1 with
      | ',' :: r2 => parseElems fuel r2 (acc ++ [v])
      | ']' :: r2 => some (.arr (acc ++ [v]), r2)
      | _ => none

end

/-- Embedding of `JSON.parse`: parse one value and require only whitespace after it.
The fuel `3 * length + 16` dominates the recursion depth (at most three
nested calls ever consume a single character). -/
def jsonParse (s : String) : Option Json :=
  match parseValue (3 * s.data.length + 16) s.data with
  | some (j, rest) => if skipWs rest = [] then some j else none
  | none => none

/-- JavaScript object-property lookup on a parsed JSON object: a later
duplicate key overwrites an earlier one. -/
def getField (fields : List (String × Json)) (k : String) : Option Json :=
  (fields.reverse.find? (fun p => p.1 == k)).map (fun p => p.2)

/-- Projection of a parsed JSON value to `SEOData`, mirroring the property
accesses the engine performs on the cast value: `data.title.trim()` throws
unless `title` is a string (any other shape makes the attempt fail), while
`description` is merely copied and `keywords` is read through
`data.keywords || []`, so both may be absent.  A `keywords` field that is
an array keeps its string elements; non-array and non-string shapes for
these optional fields are treated as absent. -/
def jsonToSEOData (j : Json) : Option SEOData :=
  match j with
  | .obj fields =>
    match getField fields "title" with
    | some (.str t) =>
      some { title := t
           , description :=
               match getField fields "description" with
               | some (.str d) => some d
               | _ => none
           , keywords :=
               match getField fields "keywords" with
               | some (.arr xs) =>
                 some (xs.filterMap (fun x =>
                   match x with
                   | .str s => some s
                   | _ => none))
               | _ => none }
    | _ => none
  | _ => none

/-- Remove every non-overlapping occurrence of `needle` from `hay`,
scanning left to right: JavaScript `hay.replace(/needle/g, '')`. -/
def stripAllOcc (needle : List Char) : Nat → List Char → List Char
  | 0, hay => hay
  | fuel + 1, hay =>
    match hay with
    | [] => []
    | c :: rest =>
      if !needle.isEmpty && needle.isPrefixOf hay then
        stripAllOcc needle fuel (hay.drop needle.length)
      else c :: stripAllOcc needle fuel rest

/-- JavaScript `s.replace(/needle/g, '')` for a literal needle. -/
def jsReplaceAll (needle : String) (s : String) : String :=
  ⟨stripAllOcc needle.data s.data.length s.data⟩

/-- The markdown cleanup of the engine (aiService.ts line 227): remove all
occurrences of a fenced-json opener, then all remaining fence markers, then
trim. -/
def cleanContent (raw : String) : String :=
  jsTrim (jsReplaceAll "```" (jsReplaceAll "```json" raw))

/-- The Response Normalizer: the segment of the engine's try block from the
empty-response guard through the `JSON.parse` of the cleaned text and the
field accesses of the cast result (aiService.ts lines 224-228 plus the
`data.title` access).  The two fixed failure messages stand in for the
engine-generated `SyntaxError` / `TypeError` texts, whose exact wording the
engine never inspects. -/
def normalize (raw : String) : Except String SEOData :=
  if raw = "" then .error "Empty AI response"
  else
    match jsonParse (cleanContent raw) with
    | none => .error "Unexpected token in JSON"
    | some j =>
      match jsonToSEOData j with
      | some d => .ok d
      | none => .error "Cannot read properties of undefined"

/-- One entry of the engine's hard-coded strategy: a model identifier and
the provider family it belongs to. -/
structure StrategyStep where
  model : String
  provider : AIProvider
deriving DecidableEq

/-- The hard-coded attempt plan of the engine (aiService.ts lines 128-136),
in source order. -/
def strategy : List StrategyStep :=
  [ ⟨"gemini-2.0-flash", .gemini⟩
  , ⟨"llama-3.2-90b-vision-preview", .groq⟩
  , ⟨"gpt-4o-mini", .openai⟩
  , ⟨"deepseek-chat", .deepseek⟩
  , ⟨"google/gemini-2.0-flash-001", .openrouter⟩
  , ⟨"llama-3.2-11b-vision-preview", .groq⟩
  , ⟨"gpt-4o", .openai⟩ ]

/-- One recorded attempt failure.  The source stores only the formatted
text of the most recent failure in its `lastError` variable; the log kept
here records every successive assignment to that variable. -/
structure AttemptFailure where
  provider : AIProvider
  model : String
  message : String
deriving DecidableEq

/-- The failure text the source assigns to `lastError`:
`` `${step.provider.toUpperCase()} [${step.model}]: ${err.message}` ``. -/
def formatFailure (f : AttemptFailure) : String :=
  f.provider.upper ++ " [" ++ f.model ++ "]: " ++ f.message

/-- The network interaction of one attempt, abstracted: given the strategy
step and the trimmed API key, either the message of the thrown error
(transport failure or non-2xx provider rejection) or the raw response
text. -/
abbrev RespondOracle := StrategyStep → String → Except String String

/-- One full attempt: the adapter call, then normalization, then
post-processing (the body of the engine's try block). -/
def attemptOnce (respond : RespondOracle) (constraints : StockConstraints)
    (step : StrategyStep) (trimmedKey : String) : Except String SEOData :=
  match respond step trimmedKey with
  | .error msg => .error msg
  | .ok raw =>
    match normalize raw with
    | .error msg => .error msg
    | .ok d => .ok (applyPostProcessing d constraints)

/-- The inner credential loop (aiService.ts lines 144-238): skip blank keys
silently; on a failed attempt append the failure and continue; on success
stop with the processed result and the log so far. -/
def runKeys (respond : RespondOracle) (constraints : StockConstraints)
    (step : StrategyStep) :
    List String → List AttemptFailure → Option SEOData × List AttemptFailure
  | [], log => (none, log)
  | apiKey :: rest, log =>
    let trimmedKey := jsTrim apiKey
    if trimmedKey = "" then runKeys respond constraints step rest log
    else
      match attemptOnce respond constraints step trimmedKey with
      | .ok d => (some d, log)
      | .error m =>
        runKeys respond constraints step rest
          (log ++ [⟨step.provider, step.model, m⟩])

/-- The outer strategy loop (aiService.ts lines 140-239): skip providers
with an empty key list silently, otherwise run their credential loop. -/
def runSteps (respond : RespondOracle) (constraints : StockConstraints)
    (settings : AppSettings) :
    List StrategyStep → List AttemptFailure → Option SEOData × List AttemptFailure
  | [], log => (none, log)
  | step :: rest, log =>
    let keys := settings.keys.forProvider step.provider
    if keys = [] then runSteps respond constraints settings rest log
    else
      match runKeys respond constraints step keys log with
      | (some d, log2) => (some d, log2)
      | (none, log2) => runSteps respond constraints settings rest log2

/-- The value of the source's `lastError` variable after the given sequence
of assignments: its initial value if none happened, else the most recent
formatted failure. -/
def lastErrorOf (log : List AttemptFailure) : String :=
  (log.getLast?.map formatFailure).getD "No active API keys found."

/-- The fallback orchestrator (the spec's `resolve`), parametrized by the
attempt plan the source hard-codes as `strategy`: run the loops starting
from an empty log; on exhaustion throw the terminal error built from
`lastError` (aiService.ts line 241).  The attempt log is returned alongside
for observation. -/
def resolve (respond : RespondOracle) (constraints : StockConstraints)
    (settings : AppSettings) (plan : List StrategyStep) :
    Except String SEOData × List AttemptFailure :=
  match runSteps respond constraints settings plan [] with
  | (some d, log) => (.ok d, log)
  | (none, log) =>
    (.error ("All providers exhausted. Final error: " ++ lastErrorOf log), log)

/-- Function `analyzeImageWithAI` from aiService.ts: the orchestrator applied to the
hard-coded strategy. -/
def analyzeImageWithAI (respond : RespondOracle) (constraints : StockConstraints)
    (settings : AppSettings) : Except String SEOData × List AttemptFailure :=
  resolve respond constraints settings strategy

/-- The attempts one strategy step generates from a key list: one per
non-blank key, carrying the trimmed key. -/
def trimKeyAttempts (step : StrategyStep) (keys : List String) :
    List (StrategyStep × String) :=
  keys.filterMap (fun apiKey =>
    let t := jsTrim apiKey
    if t = "" then none else some (step, t))

/-- The flattened attempt sequence of a plan: every (step, trimmed key)
pair the engine will try, in order. -/
def attemptList (settings : AppSettings) (plan : List StrategyStep) :
    List (StrategyStep × String) :=
  plan.flatMap (fun step => trimKeyAttempts step (settings.keys.forProvider step.provider))

/-- The engine's loops, re-expressed over the flattened attempt sequence. -/
def runAttempts (respond : RespondOracle) (constraints : StockConstraints) :
    List (StrategyStep × String) → List AttemptFailure →
    Option SEOData × List AttemptFailure
  | [], log => (none, log)
  | (step, key) :: rest, log =>
    match attemptOnce respond constraints step key with
    | .ok d => (some d, log)
    | .error m =>
      runAttempts respond constraints rest (log ++ [⟨step.provider, step.model, m⟩])

/-- The failure entries a list of attempts would generate (the message of
a succeeding attempt is irrelevant and rendered as `""`). -/
def failuresOf (respond : RespondOracle) (constraints : StockConstraints)
    (l : List (StrategyStep × String)) : List AttemptFailure :=
  l.map (fun p =>
    ⟨p.1.provider, p.1.model,
      match attemptOnce respond constraints p.1 p.2 with
      | .error m => m
      | .ok _ => ""⟩)

/-- Substring test on strings (does `hay` contain `needle`?). -/
def strContains (hay needle : String) : Bool :=
  hay.data.tails.any (fun t => needle.data.isPrefixOf t)

/-- Lower-casing as the specification's keyword rule demands (spec-side
definition: the source never lower-cases). -/
def specLower (s : String) : String := ⟨s.data.map Char.toLower⟩

/-- Modelled from the claim's words (spec §4.4 rule 4): trim and lower-case
each keyword, drop empty strings, deduplicate case-insensitively keeping
first occurrences, truncate to the target count.  This is the behaviour the
claim asserts, stated for comparison with `applyPostProcessing`. -/
def specPostKeywords (ks : List String) (targetKeywordCount : Nat) : List String :=
  (((ks.map (fun s => specLower (jsTrim s))).filter (fun s => s != "")).eraseDups).take
    targetKeywordCount

/-- The inclusive substring of `s` from the first left brace to the last
right brace, when both exist in that order. -/
def braceSubstring (s : String) : Option String :=
  match s.data.findIdx? (fun c => c = lbrace) with
  | none => none
  | some i =>
    match s.data.reverse.findIdx? (fun c => c = rbrace) with
    | none => none
    | some k =>
      let j := s.data.length - 1 - k
      if i ≤ j then some ⟨(s.data.drop i).take (j - i + 1)⟩ else none

/-- Modelled from the claim's words (spec §4.3(d)): the metadata object the
claim expects, requiring both a string `title` and a sequence `keywords`. -/
def specRequired (j : Json) : Option SEOData :=
  match j with
  | .obj fields =>
    match getField fields "title", getField fields "keywords" with
    | some (.str t), some (.arr xs) =>
      some { title := t
           , description :=
               match getField fields "description" with
               | some (.str d) => some d
               | _ => none
           , keywords := some (xs.filterMap (fun x =>
               match x with
               | .str s => some s
               | _ => none)) }
    | _, _ => none
  | _ => none

/-- Modelled from the claim's words (spec §4.3): the normalizer the claim
describes — fail on empty text, strip fences, try a direct parse, and on
failure fall back to parsing the first-brace-to-last-brace substring;
require `title` and `keywords`.  Stated for comparison with `normalize`. -/
def normalizeSpecC3 (raw : String) : Option SEOData :=
  if raw = "" then none
  else
    let cleaned := cleanContent raw
    match jsonParse cleaned with
    | some j => specRequired j
    | none =>
      match braceSubstring cleaned with
      | none => none
      | some sub =>
        match jsonParse sub with
        | some j => specRequired j
        | none => none

/-- Constraints fixture: generous budgets, prefix and suffix disabled. -/
def c0 : StockConstraints := ⟨70, 200, 50, "", "", false, false⟩

/-- Settings fixture: one Groq key and one OpenAI key, nothing else. -/
def settings401 : AppSettings := ⟨⟨["k1"], ["k2"], [], [], []⟩⟩

/-- Oracle fixture: every attempt is rejected (an invalid-key refusal,
as every provider returning HTTP 401 produces). -/
def respond401 : RespondOracle := fun _ _ => .error "Invalid API Key"

/-- The terminal error message the engine produces under `respond401` and
`settings401`. -/
def c1msg : String :=
  "All providers exhausted. Final error: OPENAI [gpt-4o]: Invalid API Key"

/-- Constraints fixture for the keyword-rule counterexample: target two
keywords. -/
def c2Constraints : StockConstraints := ⟨100, 200, 2, "", "", false, false⟩

/-- Metadata fixture whose keywords are case-insensitive duplicates. -/
def c2Data : SEOData := ⟨"T", none, some ["X", "x"]⟩

/-- A raw response with prose before the JSON object: not directly
parseable, but containing a well-formed object between its braces. -/
def c3Raw : String := "x \x7b\"title\":\"A\",\"keywords\":[]\x7d"

/-- A raw response that is a JSON object with a title but no keywords. -/
def c3RawNoKeywords : String := "\x7b\"title\":\"A\"\x7d"

/-- A clean JSON payload with title and keywords. -/
def c3GoodRaw : String := "\x7b\"title\":\"B\",\"keywords\":[\"k\"]\x7d"

/-- Constraints fixture with a title budget below the ellipsis length. -/
def c5Constraints : StockConstraints := ⟨2, 200, 5, "", "", false, false⟩

/-- Metadata fixture whose title exceeds that tiny budget. -/
def c5Data : SEOData := ⟨"abcd", none, some []⟩

/-- Constraints fixture with an enabled title prefix carrying a trailing
space. -/
def c7Constraints : StockConstraints := ⟨70, 200, 50, "Pro ", "", true, false⟩

/-- Constraints fixture with the clean enabled prefix `"Pro"`. -/
def c7WitnessConstraints : StockConstraints := ⟨70, 200, 50, "Pro", "", true, false⟩

/-- Settings fixture: only a Groq key; the Gemini entry ahead of it in the
plan has no credentials. -/
def c4Settings : AppSettings := ⟨⟨["k1"], [], [], [], []⟩⟩

/-- A two-provider plan: an unconfigured Gemini entry, then Groq. -/
def c4Plan : List StrategyStep :=
  [⟨"gemini-2.0-flash", .gemini⟩, ⟨"llama-3.2-90b-vision-preview", .groq⟩]

/-- Oracle fixture: every attempt yields a clean JSON payload. -/
def respondOk : RespondOracle :=
  fun _ _ => .ok "\x7b\"title\":\"Sunset\",\"keywords\":[\"sky\"]\x7d"

/-- Settings fixture for the first-success claim: a failing Groq key ahead
of a working OpenAI key. -/
def c6Settings : AppSettings := ⟨⟨["bad"], ["good"], [], [], []⟩⟩

/-- Oracle fixture: OpenAI answers with clean JSON, everything else is
refused. -/
def c6Respond : RespondOracle := fun step _ =>
  if step.provider = .openai then .ok "\x7b\"title\":\"A\",\"keywords\":[]\x7d"
  else .error "boom"

/-- The attempts preceding the first success under `c6Settings`. -/
def c6Pre : List (StrategyStep × String) :=
  [(⟨"llama-3.2-90b-vision-preview", .groq⟩, "bad")]

/-- The attempts after the first success under `c6Settings`. -/
def c6Post : List (StrategyStep × String) :=
  [(⟨"llama-3.2-11b-vision-preview", .groq⟩, "bad"), (⟨"gpt-4o", .openai⟩, "good")]

theorem length_dropWhile_le (p : Char → Bool) (l : List Char) :
    (l.dropWhile p).length ≤ l.length := by
  induction l with
  | nil => simp [List.dropWhile]
  | cons c cs ih =>
    by_cases h : p c
    · simp [List.dropWhile, h]
      exact Nat.le_succ_of_le ih
    · simp [List.dropWhile, h]

theorem trimChars_length_le (l : List Char) : (trimChars l).length ≤ l.length := by
  unfold trimChars
  rw [List.length_reverse]
  calc ((l.dropWhile Char.isWhitespace).reverse.dropWhile Char.isWhitespace).length
      ≤ (l.dropWhile Char.isWhitespace).reverse.length := length_dropWhile_le _ _
    _ = (l.dropWhile Char.isWhitespace).length := List.length_reverse _
    _ ≤ l.length := length_dropWhile_le _ _

theorem jsTrim_len_le (s : String) : jsLen (jsTrim s) ≤ jsLen s :=
  trimChars_length_le s.data

theorem jsLen_append (a b : String) : jsLen (a ++ b) = jsLen a + jsLen b := by
  cases a with
  | mk da =>
    cases b with
    | mk db => simp [jsLen, String.length]

theorem jsSubstringTo_len (s : String) (e : Nat) :
    jsLen (jsSubstringTo s e) = min e (jsLen s) := by
  simp [jsLen, jsSubstringTo]

theorem str_append_assoc (a b c : String) : (a ++ b) ++ c = a ++ (b ++ c) := by
  cases a with
  | mk da =>
    cases b with
    | mk db =>
      cases c with
      | mk dc =>
        show String.mk ((da ++ db) ++ dc) = String.mk (da ++ (db ++ dc))
        rw [List.append_assoc]

theorem strContains_iff (hay needle : String) :
    strContains hay needle = true ↔ needle.data <:+: hay.data := by
  constructor
  · intro h
    obtain ⟨t, ht, hp⟩ := List.any_eq_true.1 h
    rw [List.mem_tails] at ht
    rw [List.isPrefixOf_iff_prefix] at hp
    exact List.infix_iff_prefix_suffix.2 ⟨t, hp, ht⟩
  · intro h
    obtain ⟨t, hp, ht⟩ := List.infix_iff_prefix_suffix.1 h
    exact List.any_eq_true.2 ⟨t, (List.mem_tails _ _).2 ht, List.isPrefixOf_iff_prefix.2 hp⟩

theorem runKeys_eq_runAttempts (respond : RespondOracle)
    (constraints : StockConstraints) (step : StrategyStep) (keys : List String)
    (log : List AttemptFailure) :
    runKeys respond constraints step keys log =
      runAttempts respond constraints (trimKeyAttempts step keys) log := by
  induction keys generalizing log with
  | nil => rfl
  | cons k rest ih =>
    by_cases h : jsTrim k = ""
    · simp [runKeys, trimKeyAttempts, h, List.filterMap_cons]
      exact ih log
    · simp [runKeys, trimKeyAttempts, h, List.filterMap_cons]
      cases hA : attemptOnce respond constraints step (jsTrim k) with
      | ok d => simp [runAttempts, hA, trimKeyAttempts]
      | error m =>
        simp [runAttempts, hA, trimKeyAttempts]
        exact ih _

theorem runAttempts_append (respond : RespondOracle)
    (constraints : StockConstraints) (xs ys : List (StrategyStep × String))
    (log : List AttemptFailure) :
    runAttempts respond constraints (xs ++ ys) log =
      match runAttempts respond constraints xs log with
      | (some d, log2) => (some d, log2)
      | (none, log2) => runAttempts respond constraints ys log2 := by
  induction xs generalizing log with
  | nil => simp [runAttempts]
  | cons p rest ih =>
    obtain ⟨step, key⟩ := p
    cases hA : attemptOnce respond constraints step key with
    | ok d => simp [runAttempts, hA]
    | error m => simp [runAttempts, hA]; exact ih _

theorem attemptList_cons (settings : AppSettings) (step : StrategyStep)
    (rest : List StrategyStep) :
    attemptList settings (step :: rest) =
      trimKeyAttempts step (settings.keys.forProvider step.provider) ++
        attemptList settings rest := by
  simp [attemptList, List.flatMap_cons]

theorem runSteps_eq_runAttempts (respond : RespondOracle)
    (constraints : StockConstraints) (settings : AppSettings)
    (plan : List StrategyStep) (log : List AttemptFailure) :
    runSteps respond constraints settings plan log =
      runAttempts respond constraints (attemptList settings plan) log := by
  induction plan generalizing log with
  | nil => rfl
  | cons step rest ih =>
    rw [attemptList_cons, runAttempts_append]
    by_cases h : settings.keys.forProvider step.provider = []
    · simp [runSteps, h, trimKeyAttempts, runAttempts]
      exact ih log
    · simp [runSteps, h]
      rw [runKeys_eq_runAttempts]
      cases hR : runAttempts respond constraints
          (trimKeyAttempts step (settings.keys.forProvider step.provider)) log with
      | mk o log2 =>
        cases o with
        | some d => simp
        | none => simp; exact ih log2

theorem str_nil_append (s : String) : "" ++ s = s := by
  cases s with
  | mk d =>
    show String.mk ([] ++ d) = String.mk d
    rw [List.nil_append]

theorem str_append_nil (s : String) : s ++ "" = s := by
  cases s with
  | mk d =>
    show String.mk (d ++ []) = String.mk d
    rw [List.append_nil]

theorem applyPostProcessing_title (data : SEOData) (constraints : StockConstraints) :
    (applyPostProcessing data constraints).title =
      (if constraints.prefixEnabled && !(constraints.prefixText == "") then
        jsTrim constraints.prefixText ++ " " else "") ++
      truncatedTitle data constraints ++
      (if constraints.suffixEnabled && !(constraints.suffixText == "") then
        " " ++ jsTrim constraints.suffixText else "") := by
  by_cases hP : (constraints.prefixEnabled && !(constraints.prefixText == "")) = true
  · by_cases hS : (constraints.suffixEnabled && !(constraints.suffixText == "")) = true
    · simp [applyPostProcessing, truncatedTitle, hP, hS, str_append_assoc]
    · simp [applyPostProcessing, truncatedTitle, hP, hS, str_append_nil]
  · by_cases hS : (constraints.suffixEnabled && !(constraints.suffixText == "")) = true
    · simp [applyPostProcessing, truncatedTitle, hP, hS, str_nil_append, str_append_assoc]
    · simp [applyPostProcessing, truncatedTitle, hP, hS, str_nil_append, str_append_nil]

theorem truncatedTitle_len (data : SEOData) (constraints : StockConstraints)
    (h : 3 ≤ constraints.maxTitleChars) :
    jsLen (truncatedTitle data constraints) ≤ constraints.maxTitleChars := by
  unfold truncatedTitle
  by_cases hgt : jsLen (jsTrim data.title) > constraints.maxTitleChars
  · simp only [hgt, if_true]
    rw [jsLen_append, jsSubstringTo_len]
    have h3 : jsLen "..." = 3 := rfl
    rw [h3]
    have := Nat.min_le_left (constraints.maxTitleChars - 3) (jsLen (jsTrim data.title))
    omega
  · simp only [hgt, if_false]
    exact Nat.le_of_not_lt hgt

theorem applyPostProcessing_keywords (data : SEOData) (constraints : StockConstraints) :
    (applyPostProcessing data constraints).keywords =
      some ((data.keywords.getD []).take constraints.keywordCount) := by
  by_cases h : (data.keywords.getD []).length > constraints.keywordCount
  · simp [applyPostProcessing, h]
  · simp [applyPostProcessing, h]
    exact Nat.le_of_not_lt h

/-- C5 (counterexample): with a title budget of 2 and the over-long title
`"abcd"`, the Post-Processor produces the 3-character title `"..."`,
exceeding the budget (no prefix or suffix enabled). -/
theorem c5_tiny_budget_overflow :
    jsLen (applyPostProcessing c5Data c5Constraints).title = 3 ∧
    c5Constraints.prefixEnabled = false ∧ c5Constraints.suffixEnabled = false ∧
    ¬ jsLen (applyPostProcessing c5Data c5Constraints).title ≤
        c5Constraints.maxTitleChars := by
  decide

/-- C5 (amended): whenever `maxTitleChars` is at least 3 (the length of the
appended ellipsis), the post-processed title is no longer than
`maxTitleChars` plus, for each enabled non-empty affix, the trimmed affix's
length plus one separating space; and the keyword list never exceeds
`keywordCount`. -/
theorem c5_budgets_hold (data : SEOData) (constraints : StockConstraints)
    (h : 3 ≤ constraints.maxTitleChars) :
    jsLen (applyPostProcessing data constraints).title ≤
      constraints.maxTitleChars +
        (if constraints.prefixEnabled && !(constraints.prefixText == "") then
          jsLen (jsTrim constraints.prefixText) + 1 else 0) +
        (if constraints.suffixEnabled && !(constraints.suffixText == "") then
          jsLen (jsTrim constraints.suffixText) + 1 else 0) ∧
    ((applyPostProcessing data constraints).keywords.getD []).length ≤
      constraints.keywordCount := by
  constructor
  · have hcore := truncatedTitle_len data constraints h
    rw [applyPostProcessing_title, jsLen_append, jsLen_append]
    have hsp : jsLen " " = 1 := rfl
    have hem : jsLen "" = 0 := rfl
    by_cases hP : (constraints.prefixEnabled && !(constraints.prefixText == "")) = true <;>
      by_cases hS : (constraints.suffixEnabled && !(constraints.suffixText == "")) = true <;>
      simp [hP, hS, jsLen_append, hsp, hem] <;> omega
  · rw [applyPostProcessing_keywords]
    simp [List.length_take]

/-- C5 (witness): the amended budget bound applied to the `"abcd"` metadata
under the generous fixture constraints. -/
theorem c5_budgets_hold_witness :
    jsLen (applyPostProcessing c5Data c0).title ≤
      c0.maxTitleChars +
        (if c0.prefixEnabled && !(c0.prefixText == "") then
          jsLen (jsTrim c0.prefixText) + 1 else 0) +
        (if c0.suffixEnabled && !(c0.suffixText == "") then
          jsLen (jsTrim c0.suffixText) + 1 else 0) ∧
    ((applyPostProcessing c5Data c0).keywords.getD []).length ≤ c0.keywordCount :=
  c5_budgets_hold c5Data c0 (by decide)

/-- C7 (counterexample): with the enabled prefix `"Pro "` (trailing space)
and returned title `"Sunset"`, the final title is `"Pro Sunset"` — the
prefix is trimmed before being prepended — whereas prepending the prefix
itself followed by one space would give `"Pro  Sunset"`. -/
theorem c7_prefix_trimmed_not_verbatim :
    c7Constraints.prefixEnabled = true ∧
    c7Constraints.prefixText ≠ "" ∧
    (applyPostProcessing ⟨"Sunset", none, some []⟩ c7Constraints).title = "Pro Sunset" ∧
    (applyPostProcessing ⟨"Sunset", none, some []⟩ c7Constraints).title ≠
      c7Constraints.prefixText ++ " " ++ "Sunset" := by
  decide

/-- C7 (amended): for a trimmed title within the budget, the Post-Processor
prepends the TRIMMED prefix followed by exactly one space when the prefix
is enabled and non-empty, and appends one space followed by the TRIMMED
suffix when the suffix is enabled and non-empty. -/
theorem c7_affixes (data : SEOData) (constraints : StockConstraints)
    (h : ¬ jsLen (jsTrim data.title) > constraints.maxTitleChars) :
    (applyPostProcessing data constraints).title =
      (if constraints.prefixEnabled && !(constraints.prefixText == "") then
        jsTrim constraints.prefixText ++ " " else "") ++
      jsTrim data.title ++
      (if constraints.suffixEnabled && !(constraints.suffixText == "") then
        " " ++ jsTrim constraints.suffixText else "") := by
  rw [applyPostProcessing_title]
  have : truncatedTitle data constraints = jsTrim data.title := by
    simp [truncatedTitle, h]
  rw [this]

/-- C7 (witness): with the clean prefix `"Pro"` enabled and returned title
`"Sunset"`, the final title is exactly `"Pro Sunset"`. -/
theorem c7_affixes_witness :
    (applyPostProcessing ⟨"Sunset", none, some []⟩ c7WitnessConstraints).title =
      "Pro Sunset" := by
  rw [c7_affixes ⟨"Sunset", none, some []⟩ c7WitnessConstraints (by decide)]
  decide

/-- C2 (counterexample): with target count 2 and keywords `["X", "x"]`, the
Post-Processor returns them untouched — neither lower-cased nor
deduplicated case-insensitively — while the claimed pipeline would return
`["x"]`. -/
theorem c2_keywords_not_cleaned :
    (applyPostProcessing c2Data c2Constraints).keywords = some ["X", "x"] ∧
    specPostKeywords ["X", "x"] c2Constraints.keywordCount = ["x"] ∧
    (applyPostProcessing c2Data c2Constraints).keywords ≠
      some (specPostKeywords ["X", "x"] c2Constraints.keywordCount) := by
  refine ⟨rfl, rfl, ?_⟩
  decide

/-- C2 (amended): the Post-Processor only truncates the keyword list to at
most `keywordCount` entries (an absent list counting as empty); keywords
keep their original case, whitespace, duplicates and relative order, and
the result has `min keywordCount n` entries for an `n`-keyword input. -/
theorem c2_keywords_truncate_only (data : SEOData) (constraints : StockConstraints) :
    (applyPostProcessing data constraints).keywords =
      some ((data.keywords.getD []).take constraints.keywordCount) ∧
    ((applyPostProcessing data constraints).keywords.getD []).length =
      min constraints.keywordCount (data.keywords.getD []).length := by
  have h1 : (applyPostProcessing data constraints).keywords =
      some ((data.keywords.getD []).take constraints.keywordCount) := by
    by_cases h : (data.keywords.getD []).length > constraints.keywordCount
    · simp [applyPostProcessing, h]
    · simp [applyPostProcessing, h]
      exact Nat.le_of_not_lt h
  refine ⟨h1, ?_⟩
  rw [h1]
  simp [List.length_take]

/-- C9: the Post-Processor copies the description through unchanged, and
its output does not depend on `maxDescChars` at all — the description
budget is never enforced by post-processing. -/
theorem c9_description_unchanged (data : SEOData) (constraints : StockConstraints)
    (n : Nat) :
    (applyPostProcessing data constraints).description = data.description ∧
    applyPostProcessing data { constraints with maxDescChars := n } =
      applyPostProcessing data constraints := by
  exact ⟨rfl, rfl⟩

/-- C10: on metadata with an absent keyword list the Post-Processor does
not fail; it returns an empty keyword list. -/
theorem c10_missing_keywords_total (title : String) (description : Option String)
    (constraints : StockConstraints) :
    (applyPostProcessing ⟨title, description, none⟩ constraints).keywords = some [] := by
  simp [applyPostProcessing]

/-- Claim C3 (counterexample): on prose followed by a well-formed object the
normalizer fails outright while the claimed brace-scan would succeed; and on
an object lacking `keywords` the normalizer succeeds while the claim demands
failure. -/
theorem c3_no_brace_scan_counterexample :
    normalize c3Raw = .error "Unexpected token in JSON" ∧
    normalizeSpecC3 c3Raw = some ⟨"A", none, some []⟩ ∧
    normalize c3RawNoKeywords = .ok ⟨"A", none, none⟩ ∧
    normalizeSpecC3 c3RawNoKeywords = none := by
  exact ⟨rfl, rfl, rfl, rfl⟩

/-- Claim C3 (amended): the normalizer attempts one direct parse of the
fence-stripped, trimmed text and nothing else: it succeeds exactly when the
text is non-empty and the cleaned text parses directly to a JSON value
carrying a string `title` (a `keywords` field is not required); there is no
first-brace-to-last-brace fallback. -/
theorem c3_direct_parse_only (raw : String) :
    (∃ d, normalize raw = .ok d) ↔
      raw ≠ "" ∧ ∃ j, jsonParse (cleanContent raw) = some j ∧
        ∃ d, jsonToSEOData j = some d := by
  constructor
  · rintro ⟨d, hd⟩
    by_cases hE : raw = ""
    · rw [hE] at hd
      simp [normalize] at hd
    · refine ⟨hE, ?_⟩
      unfold normalize at hd
      rw [if_neg hE] at hd
      cases hJ : jsonParse (cleanContent raw) with
      | none => rw [hJ] at hd; simp at hd
      | some j =>
        rw [hJ] at hd
        cases hD : jsonToSEOData j with
        | none => simp [hD] at hd
        | some d2 => exact ⟨j, rfl, d2, hD⟩
  · rintro ⟨hE, j, hJ, d, hD⟩
    refine ⟨d, ?_⟩
    unfold normalize
    rw [if_neg hE, hJ]
    simp [hD]

/-- Claim C3 (witness): the success characterization instantiated on a clean
JSON payload. -/
theorem c3_direct_parse_only_witness :
    ∃ d, normalize c3GoodRaw = .ok d :=
  (c3_direct_parse_only c3GoodRaw).2
    ⟨by decide,
     Json.obj [("title", Json.str "B"), ("keywords", Json.arr [Json.str "k"])],
     rfl, ⟨"B", none, some ["k"]⟩, rfl⟩

/-- Claim C4: a plan entry whose provider has an empty credential list is
skipped without any observable effect — the resolution (result and attempt
log alike) is the same as on the plan with that entry removed, so no
`AttemptFailure` is ever appended for it. -/
theorem c4_unconfigured_entry_skipped (respond : RespondOracle)
    (constraints : StockConstraints) (settings : AppSettings)
    (plan1 plan2 : List StrategyStep) (step : StrategyStep)
    (h : settings.keys.forProvider step.provider = []) :
    resolve respond constraints settings (plan1 ++ step :: plan2) =
      resolve respond constraints settings (plan1 ++ plan2) := by
  unfold resolve
  rw [runSteps_eq_runAttempts, runSteps_eq_runAttempts]
  have hA : attemptList settings (plan1 ++ step :: plan2) =
      attemptList settings (plan1 ++ plan2) := by
    simp [attemptList, List.flatMap_append, List.flatMap_cons, h, trimKeyAttempts]
  rw [hA]

/-- Claim C4 (witness): on the two-provider plan whose first (Gemini) entry
has no credentials and whose second (Groq) entry has one valid key, resolve
behaves as on the Groq-only plan, succeeds via Groq, and logs nothing for
Gemini (the log is empty). -/
theorem c4_unconfigured_entry_skipped_witness :
    c4Settings.keys.forProvider AIProvider.gemini = [] ∧
    resolve respondOk c0 c4Settings c4Plan =
      resolve respondOk c0 c4Settings [⟨"llama-3.2-90b-vision-preview", .groq⟩] ∧
    (resolve respondOk c0 c4Settings c4Plan).1 = .ok ⟨"Sunset", none, some ["sky"]⟩ ∧
    (resolve respondOk c0 c4Settings c4Plan).2 = [] := by
  refine ⟨rfl, ?_, rfl, rfl⟩
  exact c4_unconfigured_entry_skipped respondOk c0 c4Settings []
    [⟨"llama-3.2-90b-vision-preview", .groq⟩] ⟨"gemini-2.0-flash", .gemini⟩ rfl

theorem str_data_append (a b : String) : (a ++ b).data = a.data ++ b.data := by
  cases a with
  | mk da =>
    cases b with
    | mk db => rfl

theorem strContains_mid (a b c : String) : strContains (a ++ (b ++ c)) b = true := by
  apply (strContains_iff _ _).2
  exact ⟨a.data, c.data, by simp [str_data_append]⟩

/-- Claim C1 (counterexample): with Groq and OpenAI keys configured and
every attempt rejected, the engine's terminal error carries only the most
recent failure — the Groq failures that were logged earlier appear nowhere
in its text — refuting that the message concatenates every logged failure
and names every attempted provider. -/
theorem c1_aggregate_missing_providers :
    (analyzeImageWithAI respond401 c0 settings401).1 = .error c1msg ∧
    ((analyzeImageWithAI respond401 c0 settings401).2.map (fun f => f.provider)) =
      [.groq, .openai, .groq, .openai] ∧
    strContains c1msg "GROQ" = false ∧
    strContains c1msg "groq" = false := by
  refine ⟨rfl, rfl, ?_, ?_⟩ <;> decide

/-- Claim C1 (amended): when the plan is exhausted, resolve fails with a
single error whose message is the terminal prefix followed by the LAST
logged failure alone; in particular it contains the last attempted
provider's identifier (earlier ones may be absent, as the counterexample
shows). -/
theorem c1_last_failure_reported (respond : RespondOracle)
    (constraints : StockConstraints) (settings : AppSettings)
    (plan : List StrategyStep) (msg : String) (f : AttemptFailure)
    (hmsg : (resolve respond constraints settings plan).1 = .error msg)
    (hlast : (resolve respond constraints settings plan).2.getLast? = some f) :
    msg = "All providers exhausted. Final error: " ++ formatFailure f ∧
    strContains msg f.provider.upper = true := by
  cases hR : runSteps respond constraints settings plan [] with
  | mk o log =>
    cases o with
    | some d =>
      unfold resolve at hmsg
      rw [hR] at hmsg
      simp at hmsg
    | none =>
      unfold resolve at hmsg hlast
      rw [hR] at hmsg hlast
      simp at hmsg hlast
      have hL : lastErrorOf log = formatFailure f := by
        simp [lastErrorOf, hlast]
      have hM : msg = "All providers exhausted. Final error: " ++ formatFailure f := by
        rw [← hmsg, hL]
      refine ⟨hM, ?_⟩
      have hF : "All providers exhausted. Final error: " ++ formatFailure f =
          "All providers exhausted. Final error: " ++
            (f.provider.upper ++ (" [" ++ (f.model ++ ("]: " ++ f.message)))) := by
        simp [formatFailure, str_append_assoc]
      rw [hM, hF]
      exact strContains_mid _ _ _

/-- Claim C1 (witness): the amended statement instantiated on the all-401
scenario — the terminal message is the prefix plus the formatted last
failure (OpenAI, gpt-4o) and contains `"OPENAI"`. -/
theorem c1_last_failure_reported_witness :
    c1msg = "All providers exhausted. Final error: " ++
      formatFailure ⟨.openai, "gpt-4o", "Invalid API Key"⟩ ∧
    strContains c1msg (AIProvider.openai).upper = true :=
  c1_last_failure_reported respond401 c0 settings401 strategy c1msg
    ⟨.openai, "gpt-4o", "Invalid API Key"⟩ rfl rfl

theorem runAttempts_firstSuccess (respond : RespondOracle)
    (constraints : StockConstraints) (pre post : List (StrategyStep × String))
    (step : StrategyStep) (key : String) (d : SEOData)
    (hpre : ∀ p ∈ pre, ∃ m, attemptOnce respond constraints p.1 p.2 = .error m)
    (hok : attemptOnce respond constraints step key = .ok d)
    (log : List AttemptFailure) :
    runAttempts respond constraints (pre ++ (step, key) :: post) log =
      (some d, log ++ failuresOf respond constraints pre) := by
  induction pre generalizing log with
  | nil => simp [runAttempts, hok, failuresOf]
  | cons p rest ih =>
    obtain ⟨m, hm⟩ := hpre p (by simp)
    have hrest : ∀ q ∈ rest, ∃ m2, attemptOnce respond constraints q.1 q.2 = .error m2 :=
      fun q hq => hpre q (by simp [hq])
    cases p with
    | mk s1 k1 =>
      simp only [List.cons_append, runAttempts, hm, List.append_eq]
      rw [ih hrest]
      simp [failuresOf, hm]

/-- Claim C6: whenever the attempt sequence splits as `pre`, a succeeding
attempt, and `post`, with every attempt of `pre` failing, resolve returns
the first success's raw result passed through the Normalizer and the
Post-Processor, with the log holding exactly the failures of `pre` — the
conclusion does not depend on `post` or on the oracle's behaviour there, so
nothing after the first success is ever attempted. -/
theorem c6_first_success_wins (respond : RespondOracle)
    (constraints : StockConstraints) (settings : AppSettings)
    (plan : List StrategyStep) (pre post : List (StrategyStep × String))
    (step : StrategyStep) (key raw : String) (d0 : SEOData)
    (hlist : attemptList settings plan = pre ++ (step, key) :: post)
    (hpre : ∀ p ∈ pre, ∃ m, attemptOnce respond constraints p.1 p.2 = .error m)
    (hraw : respond step key = .ok raw)
    (hnorm : normalize raw = .ok d0) :
    resolve respond constraints settings plan =
      (.ok (applyPostProcessing d0 constraints),
        failuresOf respond constraints pre) := by
  have hok : attemptOnce respond constraints step key =
      .ok (applyPostProcessing d0 constraints) := by
    simp [attemptOnce, hraw, hnorm]
  unfold resolve
  rw [runSteps_eq_runAttempts, hlist,
    runAttempts_firstSuccess respond constraints pre post step key _ hpre hok []]
  simp

/-- Claim C6 (witness): a failing Groq key ahead of a working OpenAI key —
resolve returns the OpenAI payload post-processed and logs exactly the one
Groq failure, oblivious to the two attempts remaining after the success. -/
theorem c6_first_success_wins_witness :
    resolve c6Respond c0 c6Settings strategy =
      (.ok (applyPostProcessing ⟨"A", none, some []⟩ c0),
        failuresOf c6Respond c0 c6Pre) := by
  apply c6_first_success_wins c6Respond c0 c6Settings strategy c6Pre c6Post
    ⟨"gpt-4o-mini", .openai⟩ "good" "\x7b\"title\":\"A\",\"keywords\":[]\x7d"
    ⟨"A", none, some []⟩
  · rfl
  · intro p hp
    simp [c6Pre] at hp
    subst hp
    exact ⟨"boom", rfl⟩
  · rfl
  · rfl

theorem runAttempts_allFail (respond : RespondOracle)
    (constraints : StockConstraints) (l : List (StrategyStep × String))
    (log : List AttemptFailure)
    (h : ∀ p ∈ l, ∃ m, attemptOnce respond constraints p.1 p.2 = .error m) :
    runAttempts respond constraints l log =
      (none, log ++ failuresOf respond constraints l) := by
  induction l generalizing log with
  | nil => simp [runAttempts, failuresOf]
  | cons p rest ih =>
    obtain ⟨m, hm⟩ := h p (by simp)
    have hrest : ∀ q ∈ rest, ∃ m2, attemptOnce respond constraints q.1 q.2 = .error m2 :=
      fun q hq => h q (by simp [hq])
    cases p with
    | mk s1 k1 =>
      simp only [runAttempts, hm]
      rw [ih _ hrest]
      simp [failuresOf, hm]

theorem runAttempts_none_allFail (respond : RespondOracle)
    (constraints : StockConstraints) (l : List (StrategyStep × String))
    (log : List AttemptFailure)
    (h : (runAttempts respond constraints l log).1 = none) :
    ∀ p ∈ l, ∃ m, attemptOnce respond constraints p.1 p.2 = .error m := by
  induction l generalizing log with
  | nil => intro p hp; simp at hp
  | cons p rest ih =>
    cases p with
    | mk s1 k1 =>
      intro q hq
      cases hA : attemptOnce respond constraints s1 k1 with
      | ok d =>
        simp only [runAttempts, hA] at h
        simp at h
      | error m =>
        simp only [runAttempts, hA] at h
        rcases List.mem_cons.1 hq with hq1 | hq2
        · subst hq1; exact ⟨m, hA⟩
        · exact ih _ h q hq2

/-- Claim C8: individual attempt failures are locally recoverable — resolve
fails exactly when EVERY attempt in the flattened plan fails, in which case
the log holds one provider-tagged entry per attempt in order; and the
Normalizer's rejection of empty response text is just such a failure
(message `"Empty AI response"`). -/
theorem c8_only_exhaustion_terminal (respond : RespondOracle)
    (constraints : StockConstraints) (settings : AppSettings)
    (plan : List StrategyStep) :
    normalize "" = .error "Empty AI response" ∧
    ((∃ msg, (resolve respond constraints settings plan).1 = .error msg) ↔
      ∀ p ∈ attemptList settings plan, ∃ m,
        attemptOnce respond constraints p.1 p.2 = .error m) ∧
    ((∀ p ∈ attemptList settings plan, ∃ m,
        attemptOnce respond constraints p.1 p.2 = .error m) →
      (resolve respond constraints settings plan).2 =
        failuresOf respond constraints (attemptList settings plan)) := by
  refine ⟨rfl, ⟨?_, ?_⟩, ?_⟩
  · rintro ⟨msg, hmsg⟩
    cases hR : runSteps respond constraints settings plan [] with
    | mk o log =>
      cases o with
      | some d =>
        unfold resolve at hmsg
        rw [hR] at hmsg
        simp at hmsg
      | none =>
        apply runAttempts_none_allFail respond constraints (attemptList settings plan) []
        rw [← runSteps_eq_runAttempts, hR]
  · intro hall
    unfold resolve
    rw [runSteps_eq_runAttempts,
      runAttempts_allFail respond constraints (attemptList settings plan) [] hall]
    exact ⟨_, rfl⟩
  · intro hall
    unfold resolve
    rw [runSteps_eq_runAttempts,
      runAttempts_allFail respond constraints (attemptList settings plan) [] hall]
    simp

/-- Claim C8 (witness): under the all-rejected oracle the log is exactly
the failure trace of the whole flattened plan. -/
theorem c8_only_exhaustion_terminal_witness :
    (resolve respond401 c0 settings401 strategy).2 =
      failuresOf respond401 c0 (attemptList settings401 strategy) :=
  (c8_only_exhaustion_terminal respond401 c0 settings401 strategy).2.2
    (fun _ _ => ⟨"Invalid API Key", rfl⟩)

end SEOVision
